import Mathlib

/-!
Verification of the man-page segmentation engine and the viewer
navigation/search state machine.

Strings are modelled as lists of characters (`Str`).  The source operates
on ASCII man-page text; byte-level Go operations (`trimmed[0]`, `len`)
coincide with character-level operations on such inputs, and we model them
at the character level throughout.  Go `int` values are modelled as `Int`
(or `Nat` for values that are only ever list indices produced by loops),
with Go's truncated division and modulus modelled explicitly.
-/

abbrev Str := List Char

/-- The whitespace class of the regexp escape used by the source's
patterns (RE2 Perl class): tab, newline, form feed, carriage return,
space. -/
def isSpaceRE (c : Char) : Bool :=
  c = ' ' || c = '\t' || c = '\n' || c = Char.ofNat 12 || c = '\r'

/-- `unicode.IsSpace`, as used by `strings.TrimSpace`, restricted to the
code points it recognises in Latin-1: tab, newline, vertical tab, form
feed, carriage return, space, NEL (U+0085), NBSP (U+00A0). -/
def isSpaceGo (c : Char) : Bool :=
  c = ' ' || c = '\t' || c = '\n' || c = Char.ofNat 11 || c = Char.ofNat 12 ||
    c = '\r' || c = Char.ofNat 0x85 || c = Char.ofNat 0xA0

/-- `strings.TrimSpace`: drop leading and trailing whitespace. -/
def trimSpace (l : Str) : Str :=
  ((l.dropWhile isSpaceGo).reverse.dropWhile isSpaceGo).reverse

/-- The indentation depth the parser computes:
`len(line) - len(strings.TrimLeft(line, " \t"))`, i.e. the number of
leading spaces/tabs. -/
def indentOf (l : Str) : Nat :=
  (l.takeWhile (fun c => c = ' ' || c = '\t')).length

/-- The word-character class of the regexp escape in the source's
multi-option pattern: `[0-9A-Za-z_]`. -/
def isWordChar (c : Char) : Bool :=
  ('0' ≤ c && c ≤ '9') || ('A' ≤ c && c ≤ 'Z') || ('a' ≤ c && c ≤ 'z') || c = '_'

/-- `[A-Z]` of the source's header pattern. -/
def isUpperAZ (c : Char) : Bool :=
  'A' ≤ c && c ≤ 'Z'

/-- Whether the option-definition pattern (anchored at the start of the
line: 5 to 8 whitespace characters, then `-` followed by a non-whitespace
character, or `--` followed by a letter and letters/digits/dashes) matches
with a whitespace run of exactly `k`.  Since the long-flag alternative
starts with `-` followed by the non-whitespace character `-`, it is
subsumed by the short alternative for the purposes of `MatchString`, so
only the two-character test remains. -/
def optionDefAt (l : Str) (k : Nat) : Bool :=
  (l.take k).all isSpaceRE &&
    (match l.drop k with
     | c :: d :: _ => c = '-' && !isSpaceRE d
     | _ => false)

/-- `optionDefRe.MatchString`: the pattern allows an indentation run of
5, 6, 7 or 8 whitespace characters. -/
def optionDefMatch (l : Str) : Bool :=
  [5, 6, 7, 8].any (optionDefAt l)

/-- `sectionHeaderRe.MatchString` on an (already trimmed) line: the
pattern is anchored on both sides, so it is a full match of
one `[A-Z]` followed by one or more `[A-Z ]`. -/
def sectionHeaderMatch (t : Str) : Bool :=
  match t with
  | [] => false
  | c :: rest => isUpperAZ c && !rest.isEmpty && rest.all (fun d => isUpperAZ d || d = ' ')

/-- Consume `--` followed by one or more word characters; return the rest. -/
def eatDashWord : Str → Option Str
  | '-' :: '-' :: rest =>
    let w := rest.takeWhile isWordChar
    if w.isEmpty then none else some (rest.drop w.length)
  | _ => none

/-- Consume `,` followed by one or more whitespace characters; return the rest. -/
def eatCommaSpace : Str → Option Str
  | ',' :: rest =>
    let s := rest.takeWhile isSpaceRE
    if s.isEmpty then none else some (rest.drop s.length)
  | _ => none

/-- The multi-option pattern, matched at the head of the string:
`--` word chars, `,` spaces, `--` word chars, `,` spaces, `--` word chars.
Because each repetition operator is followed by a character outside its
class, greedy consumption is equivalent to the regexp's match. -/
def matchMultiAt (l : Str) : Bool :=
  (do
    let r1 ← eatDashWord l
    let r2 ← eatCommaSpace r1
    let r3 ← eatDashWord r2
    let r4 ← eatCommaSpace r3
    let _ ← eatDashWord r4
    pure ()).isSome

/-- All suffixes of a string, longest first (including the empty one). -/
def tailsStr : Str → List Str
  | [] => [[]]
  | c :: cs => (c :: cs) :: tailsStr cs

/-- `multiOptionListRe.MatchString`: the pattern is unanchored, so it
matches if it matches at any position. -/
def multiOptionListMatch (l : Str) : Bool :=
  (tailsStr l).any matchMultiAt

/-- Maximum length for a line containing just option flags. -/
def maxOptionLineLength : Nat := 60

/-- A CLI option section parsed from a man page. -/
structure Section where
  Option : Str
  Explanation : Str
  StartLine : Nat
  EndLine : Nat
deriving DecidableEq, Repr

/-- A major man-page section header (NAME, SYNOPSIS, ...). -/
structure ManSection where
  Name : Str
  StartLine : Nat
deriving DecidableEq, Repr

/-- `strings.Join(lines, " ")`. -/
def joinSpace : List Str → Str
  | [] => []
  | [x] => x
  | x :: y :: ys => x ++ ' ' :: joinSpace (y :: ys)

/-- Whether a line is blank after trimming (`strings.TrimSpace(l) == ""`). -/
def isBlank (l : Str) : Bool :=
  (trimSpace l).isEmpty

/-- The explanation-collection loop of `parseOptionSections`, operating on
the lines after the option-definition line.  Returns the collected
explanation lines (trimmed, with `""` entries for kept paragraph breaks)
and the unconsumed remainder of the input. -/
def collectExpl (optionIndent : Nat) : List Str → List Str × List Str
  | [] => ([], [])
  | nextLine :: rest =>
    if isBlank nextLine then
      -- look ahead past further blank lines for the next content line
      match rest.dropWhile isBlank with
      | [] => ([], nextLine :: rest)
      | peekLine :: _ =>
        if indentOf peekLine > optionIndent + 2 && !optionDefMatch peekLine then
          let (e, rem) := collectExpl optionIndent rest
          ([] :: e, rem)
        else ([], nextLine :: rest)
    else if optionDefMatch nextLine || sectionHeaderMatch (trimSpace nextLine) then
      ([], nextLine :: rest)
    else if indentOf nextLine ≤ optionIndent then
      ([], nextLine :: rest)
    else
      let (e, rem) := collectExpl optionIndent rest
      (trimSpace nextLine :: e, rem)

/-- The main scanning loop of `parseOptionSections`.  `i` is the absolute
line number of the head of the current line list.  `fuel` bounds the
number of iterations; since every iteration consumes at least one line,
`fuel = length of the line list` always suffices, which
`parseOptionSections` supplies. -/
def parseLoopF : Nat → List Str → Nat → List Section
  | 0, _, _ => []
  | _ + 1, [], _ => []
  | fuel + 1, line :: rest, i =>
    if optionDefMatch line then
      let trimmed := trimSpace line
      if trimmed = [] ∨ trimmed.head? ≠ some '-' then
        parseLoopF fuel rest (i + 1)
      else if trimmed.length > maxOptionLineLength then
        parseLoopF fuel rest (i + 1)
      else if multiOptionListMatch trimmed then
        parseLoopF fuel rest (i + 1)
      else
        let optionIndent := indentOf line
        let (explanationLines, rem) := collectExpl optionIndent rest
        let iEnd := i + 1 + (rest.length - rem.length)
        let sec : Section :=
          { Option := trimmed, Explanation := joinSpace explanationLines,
            StartLine := i, EndLine := iEnd - 1 }
        if sec.Option ≠ [] ∧ sec.Option.head? = some '-' then
          sec :: parseLoopF fuel rem iEnd
        else
          parseLoopF fuel rem iEnd
    else
      parseLoopF fuel rest (i + 1)

/-- `parseOptionSections`: extract option sections from man page lines. -/
def parseOptionSections (lines : List Str) : List Section :=
  parseLoopF lines.length lines 0

/-- `parseManSections`: extract major section headers from man page
lines (`for i, line := range lines`, skip blank, keep regexp matches). -/
def parseManSections (lines : List Str) : List ManSection :=
  lines.enum.filterMap fun p =>
    let t := trimSpace p.2
    if t = [] then none
    else if sectionHeaderMatch t then some ⟨t, p.1⟩
    else none

/-! ## MatchEngine -/

/-- `strings.ToLower` for the ASCII man-page text this program handles
(lowercases `A`-`Z`; other characters unchanged). -/
def toLowerStr (l : Str) : Str :=
  l.map Char.toLower

/-- Whether `pat` is a prefix of `s`. -/
def isPrefixStr : Str → Str → Bool
  | [], _ => true
  | _ :: _, [] => false
  | a :: as, b :: bs => a = b && isPrefixStr as bs

/-- `strings.Contains(s, pat)`: `pat` occurs as a contiguous substring of
`s` (always true for an empty `pat`). -/
def containsStr (s pat : Str) : Bool :=
  (tailsStr s).any (fun t => isPrefixStr pat t)

/-- `Section.MatchesQuery`: case-insensitive substring match against
option text or explanation text; an empty query matches. -/
def MatchesQuery (s : Section) (query : Str) : Bool :=
  if query = [] then true
  else
    let q := toLowerStr query
    containsStr (toLowerStr s.Option) q || containsStr (toLowerStr s.Explanation) q

/-- The scanning loop of `extractOptionFlags`: look for the first run of
two consecutive spaces; `acc` is the reversed prefix scanned so far. -/
def extractFlagsAux : Str → Str → Str
  | ' ' :: ' ' :: _, acc => trimSpace acc.reverse
  | c :: cs, acc => extractFlagsAux cs (c :: acc)
  | [], acc => acc.reverse

/-- `extractOptionFlags`: everything before the first double space
(trimmed), or the whole option text when there is none. -/
def extractOptionFlags (opt : Str) : Str :=
  extractFlagsAux opt []

/-- `Section.MatchesOption`: case-insensitive substring match against the
extracted option flags only. -/
def MatchesOption (s : Section) (query : Str) : Bool :=
  if query = [] then true
  else containsStr (toLowerStr (extractOptionFlags s.Option)) (toLowerStr query)

/-- `strings.FieldsFunc`: split at separator characters, dropping empty
fields.  `acc` is the reversed current field. -/
def fieldsAux (p : Char → Bool) : Str → Str → List Str
  | [], acc => if acc = [] then [] else [acc.reverse]
  | c :: cs, acc =>
    if p c then
      if acc = [] then fieldsAux p cs []
      else acc.reverse :: fieldsAux p cs []
    else fieldsAux p cs (c :: acc)

/-- `Section.MatchesOptionExact`: split the extracted flags on commas and
spaces, strip leading dashes from each token and from the query, and test
case-sensitive equality; an empty query matches. -/
def MatchesOptionExact (s : Section) (query : Str) : Bool :=
  if query = [] then true
  else
    let flags := extractOptionFlags s.Option
    let queryNorm := query.dropWhile (fun c => c = '-')
    let parts := fieldsAux (fun c => c = ',' || c = ' ') flags []
    parts.any fun part =>
      let pt := trimSpace part
      if pt = [] then false
      else pt.dropWhile (fun c => c = '-') = queryNorm

/-- `Section.MatchesDescription`: case-insensitive substring match against
explanation text only; an empty query matches. -/
def MatchesDescription (s : Section) (query : Str) : Bool :=
  if query = [] then true
  else containsStr (toLowerStr s.Explanation) (toLowerStr query)

/-! ## Viewer state machine

The viewer's `Update` dispatches on the current mode and on the key
event's name (`msg.String()`), which we model as a `Str`.  The window,
man-page identity and rendering are not part of the transition logic; the
`ManPage` field and raw content string, which the transitions never read
or write, are omitted.  Go's `%` and `/` on `int` are truncated division,
i.e. `Int.tmod` / `Int.tdiv`.  Go list indexing panics when out of range;
it is modelled by a default value (the theorems below only evaluate it at
in-range indices). -/

/-- The parsed man-page content carried by the viewer. -/
structure ManPageContent where
  Lines : List Str
  Sections : List Section
  ManSections : List ManSection
deriving DecidableEq

inductive ViewerMode
  | ModeNormal
  | ModeSearch
  | ModeSectionSelect
  | ModeHelp
deriving DecidableEq, Repr

inductive SearchType
  | SearchAll
  | SearchOption
  | SearchOptionExact
  | SearchDescription
deriving DecidableEq, Repr

open ViewerMode SearchType

/-- `FocusPane` constants (Go `iota`). -/
def PaneSidebar : Int := 0
def PaneContent : Int := 1
def PaneSections : Int := 2
def PaneCount : Int := 3

/-- The Bubble Tea model for the man page viewer. -/
structure Viewer where
  content : ManPageContent
  mode : ViewerMode
  focusPane : Int
  sidebarCursor : Int
  sidebarScrollOffset : Int
  searchInput : Str
  searchQuery : Str
  searchType : SearchType
  filteredIndices : List Nat
  matchingLines : List Nat
  currentMatch : Int
  scrollOffset : Int
  contentCursor : Int
  width : Int
  height : Int
  quitting : Bool
  sectionCursor : Int
  sectionScrollOffset : Int
deriving DecidableEq

/-- Indexing a list by a Go `int`; out of range yields the default
(where Go would panic). -/
def getIntD (l : List α) (i : Int) (d : α) : α :=
  if h : 0 ≤ i ∧ i.toNat < l.length then l.get ⟨i.toNat, h.2⟩ else d

def defaultSection : Section := ⟨[], [], 0, 0⟩
def defaultManSection : ManSection := ⟨[], 0⟩

/-- `viewportHeight`: content height minus the three reserved lines. -/
def viewportHeight (v : Viewer) : Int :=
  v.height - 3

/-- The `maxScroll` computation that recurs through the source:
`len(lines) - viewportHeight`, clamped below at 0. -/
def maxScrollOf (v : Viewer) : Int :=
  let ms := (v.content.Lines.length : Int) - viewportHeight v
  if ms < 0 then 0 else ms

/-- `totalMatches`: line matches if any, else section matches. -/
def totalMatches (v : Viewer) : Nat :=
  if v.matchingLines.length > 0 then v.matchingLines.length
  else v.filteredIndices.length

/-- `findMatchingSections`: indices of sections matching the active query
under the active search type. -/
def findMatchingSections (v : Viewer) : List Nat :=
  v.content.Sections.enum.filterMap fun p =>
    let m :=
      match v.searchType with
      | SearchOption => MatchesOption p.2 v.searchQuery
      | SearchOptionExact => MatchesOptionExact p.2 v.searchQuery
      | SearchDescription => MatchesDescription p.2 v.searchQuery
      | _ => MatchesQuery p.2 v.searchQuery
    if m then some p.1 else none

/-- `findMatchingLines`: line numbers containing the query
(case-insensitive). -/
def findMatchingLines (v : Viewer) : List Nat :=
  v.content.Lines.enum.filterMap fun p =>
    if containsStr (toLowerStr p.2) (toLowerStr v.searchQuery) then some p.1 else none

/-- `getDisplayedSectionIndices`: all sections when no search is active,
else the matching subset. -/
def getDisplayedSectionIndices (v : Viewer) : List Nat :=
  if v.searchQuery = [] then List.range v.content.Sections.length
  else if v.filteredIndices ≠ [] then v.filteredIndices
  else if v.matchingLines ≠ [] then
    v.content.Sections.enum.filterMap fun p =>
      if MatchesQuery p.2 v.searchQuery then some p.1 else none
  else []

/-- `adjustSidebarScroll`: keep the sidebar cursor visible. -/
def adjustSidebarScroll (v : Viewer) : Viewer :=
  let vpHeight := viewportHeight v
  if v.sidebarCursor < v.sidebarScrollOffset then
    { v with sidebarScrollOffset := v.sidebarCursor }
  else if v.sidebarCursor ≥ v.sidebarScrollOffset + vpHeight then
    { v with sidebarScrollOffset := v.sidebarCursor - vpHeight + 1 }
  else v

/-- `sectionModalHeight`: visible items in the section modal. -/
def sectionModalHeight (v : Viewer) : Int :=
  let maxHeight := Int.tdiv v.height 2 - 4
  let maxHeight := if maxHeight < 5 then 5 else maxHeight
  let numSections := (v.content.ManSections.length : Int)
  if numSections < maxHeight then numSections else maxHeight

/-- `adjustSectionScroll`: keep the section-modal cursor visible. -/
def adjustSectionScroll (v : Viewer) : Viewer :=
  let modalHeight := sectionModalHeight v
  if v.sectionCursor < v.sectionScrollOffset then
    { v with sectionScrollOffset := v.sectionCursor }
  else if v.sectionCursor ≥ v.sectionScrollOffset + modalHeight then
    { v with sectionScrollOffset := v.sectionCursor - modalHeight + 1 }
  else v

/-- The common tail of `scrollToCurrentMatch`: center `targetLine` in the
viewport and clamp the offset to `[0, maxScroll]`. -/
def centerScroll (v : Viewer) (targetLine : Int) : Viewer :=
  let so := targetLine - Int.tdiv (viewportHeight v) 2
  let so := if so < 0 then 0 else so
  let maxScroll := maxScrollOf v
  let so := if so > maxScroll then maxScroll else so
  { v with scrollOffset := so }

/-- `scrollToCurrentMatch`: scroll the viewport to the current match; in
section mode also move the sidebar cursor to the matched section's index
and keep it visible. -/
def scrollToCurrentMatch (v : Viewer) : Viewer :=
  if v.matchingLines ≠ [] then
    centerScroll v ((getIntD v.matchingLines v.currentMatch 0 : Nat) : Int)
  else if v.filteredIndices ≠ [] then
    let sectionIdx := getIntD v.filteredIndices v.currentMatch 0
    let sec := v.content.Sections.getD sectionIdx defaultSection
    centerScroll (adjustSidebarScroll { v with sidebarCursor := (sectionIdx : Int) })
      (sec.StartLine : Int)
  else v

/-! ### Key events

Key events are the strings Bubble Tea's `msg.String()` produces; the
switches below compare against the literals of the source. -/

def keyQ : Str := ['q']
def keyCtrlC : Str := ['c', 't', 'r', 'l', '+', 'c']
def keyTab : Str := ['t', 'a', 'b']
def keyShiftTab : Str := ['s', 'h', 'i', 'f', 't', '+', 't', 'a', 'b']
def keySlash : Str := ['/']
def keyOLower : Str := ['o']
def keyOUpper : Str := ['O']
def keyD : Str := ['d']
def keyEsc : Str := ['e', 's', 'c']
def keyNLower : Str := ['n']
def keyNUpper : Str := ['N']
def keyGUpper : Str := ['G']
def keyGLower : Str := ['g']
def keyQuestion : Str := ['?']
def keyUp : Str := ['u', 'p']
def keyDown : Str := ['d', 'o', 'w', 'n']
def keyK : Str := ['k']
def keyJ : Str := ['j']
def keyEnter : Str := ['e', 'n', 't', 'e', 'r']
def keyRight : Str := ['r', 'i', 'g', 'h', 't']
def keyLeft : Str := ['l', 'e', 'f', 't']
def keyL : Str := ['l']
def keyH : Str := ['h']
def keyHome : Str := ['h', 'o', 'm', 'e']
def keyEnd : Str := ['e', 'n', 'd']
def keyPgUp : Str := ['p', 'g', 'u', 'p']
def keyCtrlU : Str := ['c', 't', 'r', 'l', '+', 'u']
def keyPgDown : Str := ['p', 'g', 'd', 'o', 'w', 'n']
def keyCtrlD : Str := ['c', 't', 'r', 'l', '+', 'd']
def keyBackspace : Str := ['b', 'a', 'c', 'k', 's', 'p', 'a', 'c', 'e']

/-- `updateSidebar`: key handling for the left sidebar pane. -/
def updateSidebar (v : Viewer) (key : Str) : Viewer :=
  let displayedIndices := getDisplayedSectionIndices v
  if displayedIndices = [] then v
  else if key = keyUp ∨ key = keyK then
    if v.sidebarCursor > 0 then
      adjustSidebarScroll { v with sidebarCursor := v.sidebarCursor - 1 }
    else v
  else if key = keyDown ∨ key = keyJ then
    if v.sidebarCursor < (displayedIndices.length : Int) - 1 then
      adjustSidebarScroll { v with sidebarCursor := v.sidebarCursor + 1 }
    else v
  else if key = keyEnter ∨ key = keyRight ∨ key = keyL then
    let sectionIdx := getIntD displayedIndices v.sidebarCursor 0
    let sec := v.content.Sections.getD sectionIdx defaultSection
    let so : Int := sec.StartLine
    let maxScroll := maxScrollOf v
    let so := if so > maxScroll then maxScroll else so
    { v with scrollOffset := so, focusPane := PaneContent }
  else if key = keyHome then
    { v with sidebarCursor := 0, sidebarScrollOffset := 0 }
  else if key = keyGUpper then
    adjustSidebarScroll { v with sidebarCursor := (displayedIndices.length : Int) - 1 }
  else v

/-- `updateContent`: key handling for the center content pane. -/
def updateContent (v : Viewer) (key : Str) : Viewer :=
  let vpHeight := viewportHeight v
  let maxLine := let m : Int := (v.content.Lines.length : Int) - 1; if m < 0 then 0 else m
  if key = keyUp ∨ key = keyK then
    let currentLine := v.scrollOffset + v.contentCursor
    if currentLine > 0 then
      if v.contentCursor > 0 then { v with contentCursor := v.contentCursor - 1 }
      else { v with scrollOffset := v.scrollOffset - 1 }
    else v
  else if key = keyDown ∨ key = keyJ then
    let currentLine := v.scrollOffset + v.contentCursor
    if currentLine < maxLine then
      if v.contentCursor < vpHeight - 1 then { v with contentCursor := v.contentCursor + 1 }
      else { v with scrollOffset := v.scrollOffset + 1 }
    else v
  else if key = keyPgUp ∨ key = keyCtrlU then
    let halfPage := Int.tdiv vpHeight 2
    let currentLine := v.scrollOffset + v.contentCursor
    let newLine := currentLine - halfPage
    let newLine := if newLine < 0 then 0 else newLine
    if newLine < v.scrollOffset then
      { v with scrollOffset := newLine, contentCursor := 0 }
    else
      { v with contentCursor := newLine - v.scrollOffset }
  else if key = keyPgDown ∨ key = keyCtrlD then
    let halfPage := Int.tdiv vpHeight 2
    let currentLine := v.scrollOffset + v.contentCursor
    let newLine := currentLine + halfPage
    let newLine := if newLine > maxLine then maxLine else newLine
    let maxScroll := maxScrollOf v
    if newLine ≥ v.scrollOffset + vpHeight then
      let so := newLine - vpHeight + 1
      let so := if so > maxScroll then maxScroll else so
      { v with scrollOffset := so, contentCursor := newLine - so }
    else
      { v with contentCursor := newLine - v.scrollOffset }
  else if key = keyHome then
    { v with scrollOffset := 0, contentCursor := 0 }
  else if key = keyGUpper then
    let maxScroll := maxScrollOf v
    let cc := vpHeight - 1
    let cc := if cc > maxLine - maxScroll then maxLine - maxScroll else cc
    { v with scrollOffset := maxScroll, contentCursor := cc }
  else if key = keyLeft ∨ key = keyH then
    { v with focusPane := PaneSidebar }
  else if key = keyRight ∨ key = keyL then
    { v with focusPane := PaneSections }
  else v

/-- `updateSections`: key handling for the right sections pane. -/
def updateSections (v : Viewer) (key : Str) : Viewer :=
  let sections := v.content.ManSections
  if sections = [] then v
  else if key = keyUp ∨ key = keyK then
    if v.sectionCursor > 0 then { v with sectionCursor := v.sectionCursor - 1 } else v
  else if key = keyDown ∨ key = keyJ then
    if v.sectionCursor < (sections.length : Int) - 1 then
      { v with sectionCursor := v.sectionCursor + 1 }
    else v
  else if key = keyEnter ∨ key = keyL then
    let sec := getIntD sections v.sectionCursor defaultManSection
    let so : Int := sec.StartLine
    let maxScroll := maxScrollOf v
    let so := if so > maxScroll then maxScroll else so
    { v with scrollOffset := so, focusPane := PaneContent }
  else if key = keyHome then
    { v with sectionCursor := 0 }
  else if key = keyGUpper then
    { v with sectionCursor := (sections.length : Int) - 1 }
  else if key = keyLeft ∨ key = keyH then
    { v with focusPane := PaneContent }
  else v

/-- `updateSearch`: key handling while typing a search query. -/
def updateSearch (v : Viewer) (key : Str) : Viewer :=
  if key = keyCtrlC then { v with quitting := true }
  else if key = keyEsc then { v with mode := ModeNormal, searchInput := [] }
  else if key = keyEnter then
    let v1 := { v with searchQuery := v.searchInput, currentMatch := 0,
                       sidebarCursor := 0, sidebarScrollOffset := 0 }
    if v1.searchType = SearchAll then
      let ml := findMatchingLines v1
      let v2 := { v1 with matchingLines := ml, filteredIndices := [] }
      let v3 := if ml ≠ [] then scrollToCurrentMatch v2 else v2
      { v3 with mode := ModeNormal, focusPane := PaneContent }
    else
      let fi := findMatchingSections v1
      let v2 := { v1 with filteredIndices := fi, matchingLines := [] }
      let v3 := if fi ≠ [] then scrollToCurrentMatch v2 else v2
      { v3 with mode := ModeNormal, focusPane := PaneContent }
  else if key = keyBackspace then
    if v.searchInput ≠ [] then { v with searchInput := v.searchInput.dropLast } else v
  else if key.length = 1 then { v with searchInput := v.searchInput ++ key }
  else v

/-- `updateSectionSelect`: key handling for the section-selector modal. -/
def updateSectionSelect (v : Viewer) (key : Str) : Viewer :=
  let sections := v.content.ManSections
  if sections = [] then { v with mode := ModeNormal }
  else if key = keyCtrlC then { v with quitting := true }
  else if key = keyEsc ∨ key = keyGLower then { v with mode := ModeNormal }
  else if key = keyUp ∨ key = keyK then
    if v.sectionCursor > 0 then
      adjustSectionScroll { v with sectionCursor := v.sectionCursor - 1 }
    else v
  else if key = keyDown ∨ key = keyJ then
    if v.sectionCursor < (sections.length : Int) - 1 then
      adjustSectionScroll { v with sectionCursor := v.sectionCursor + 1 }
    else v
  else if key = keyEnter ∨ key = keyL then
    let sec := getIntD sections v.sectionCursor defaultManSection
    let so : Int := sec.StartLine
    let maxScroll := maxScrollOf v
    let so := if so > maxScroll then maxScroll else so
    { v with scrollOffset := so, mode := ModeNormal, focusPane := PaneContent }
  else if key = keyHome then
    { v with sectionCursor := 0, sectionScrollOffset := 0 }
  else if key = keyEnd ∨ key = keyGUpper then
    adjustSectionScroll { v with sectionCursor := (sections.length : Int) - 1 }
  else v

/-- `updateHelp`: key handling for the help modal. -/
def updateHelp (v : Viewer) (key : Str) : Viewer :=
  if key = keyCtrlC then { v with quitting := true }
  else if key = keyEsc ∨ key = keyQuestion ∨ key = keyQ then { v with mode := ModeNormal }
  else v

/-- `updateNormal`: global keys for normal mode, then pane dispatch. -/
def updateNormal (v : Viewer) (key : Str) : Viewer :=
  if key = keyQ ∨ key = keyCtrlC then { v with quitting := true }
  else if key = keyTab then
    { v with focusPane := Int.tmod (v.focusPane + 1) PaneCount }
  else if key = keyShiftTab then
    { v with focusPane := Int.tmod (v.focusPane + PaneCount - 1) PaneCount }
  else if key = keySlash then
    { v with mode := ModeSearch, searchInput := [], searchType := SearchAll }
  else if key = keyOLower then
    { v with mode := ModeSearch, searchInput := [], searchType := SearchOption }
  else if key = keyOUpper then
    { v with mode := ModeSearch, searchInput := [], searchType := SearchOptionExact }
  else if key = keyD then
    { v with mode := ModeSearch, searchInput := [], searchType := SearchDescription }
  else if key = keyEsc then
    { v with searchQuery := [], filteredIndices := [], matchingLines := [],
             currentMatch := 0, sidebarCursor := 0, sidebarScrollOffset := 0 }
  else if key = keyNLower then
    let matchCount := totalMatches v
    if matchCount > 0 then
      { scrollToCurrentMatch
          { v with currentMatch := Int.tmod (v.currentMatch + 1) (matchCount : Int) } with
        focusPane := PaneContent }
    else v
  else if key = keyNUpper then
    let matchCount := totalMatches v
    if matchCount > 0 then
      let c := v.currentMatch - 1
      let c := if c < 0 then (matchCount : Int) - 1 else c
      { scrollToCurrentMatch { v with currentMatch := c } with focusPane := PaneContent }
    else v
  else if key = keyGUpper then
    if v.content.ManSections.length > 0 then
      { v with mode := ModeSectionSelect, sectionCursor := 0, sectionScrollOffset := 0 }
    else v
  else if key = keyQuestion then
    { v with mode := ModeHelp }
  else if v.focusPane = PaneSidebar then updateSidebar v key
  else if v.focusPane = PaneSections then updateSections v key
  else updateContent v key

/-- `Update` for key messages: dispatch on the current mode.
(`WindowSizeMsg` is the only other message and touches only
`width`/`height`; it is not a key event.) -/
def update (v : Viewer) (key : Str) : Viewer :=
  match v.mode with
  | ModeNormal => updateNormal v key
  | ModeSearch => updateSearch v key
  | ModeSectionSelect => updateSectionSelect v key
  | ModeHelp => updateHelp v key

/-- Apply a sequence of key events. -/
def applyKeys (v : Viewer) (keys : List Str) : Viewer :=
  keys.foldl update v

/-! ## Scenario A -/

/-- The five-line input of end-to-end scenario A. -/
def scenarioA : List Str :=
  [("     DESCRIPTION").toList,
   ("       -r, --recursive   Copy directories recursively.").toList,
   [],
   ("       More detail.").toList,
   ("       -v   Verbose output.").toList]

/-- C1 (counterexample): on scenario A the code does not produce the
claimed result.  The heading part is as claimed, but the first option
section keeps the whole trimmed line (flags and inline description) as
its flag text, has an empty body, and ends at line 1 — the blank line
terminates it because the following content line's indentation (7) does
not exceed the baseline (7) by more than 2 — and the second section
likewise keeps its inline description and has an empty body. -/
theorem c1_counterexample :
    ¬ (parseManSections scenarioA = [⟨("DESCRIPTION").toList, 0⟩] ∧
       parseOptionSections scenarioA =
         [⟨("-r, --recursive").toList,
           ("Copy directories recursively. More detail.").toList, 1, 3⟩,
          ⟨("-v").toList, ("Verbose output.").toList, 4, 4⟩]) := by
  decide

/-- C1 (amended): segmentation of scenario A yields exactly one heading
marker `DESCRIPTION` at line 0 and exactly two option sections: the first
with flag text `-r, --recursive   Copy directories recursively.`, empty
body, startLine 1, endLine 1; the second with flag text
`-v   Verbose output.`, empty body, startLine 4, endLine 4. -/
theorem c1_amended :
    parseManSections scenarioA = [⟨("DESCRIPTION").toList, 0⟩] ∧
    parseOptionSections scenarioA =
      [⟨("-r, --recursive   Copy directories recursively.").toList, [], 1, 1⟩,
       ⟨("-v   Verbose output.").toList, [], 4, 4⟩] := by
  decide

/-- C7: for a section whose flag text is `-L, --location`, the exact
option matcher accepts query `L`, rejects query `oc`, and the partial
option matcher accepts query `oc`. -/
theorem c7_option_matchers (s : Section) (h : s.Option = ("-L, --location").toList) :
    MatchesOptionExact s ['L'] = true ∧
    MatchesOptionExact s ['o', 'c'] = false ∧
    MatchesOption s ['o', 'c'] = true := by
  obtain ⟨o, e, a, b⟩ := s
  cases h
  exact ⟨rfl, rfl, rfl⟩

/-- C7 witness: the matcher facts at a concrete section. -/
theorem c7_witness :
    MatchesOptionExact ⟨("-L, --location").toList, [], 0, 0⟩ ['L'] = true ∧
    MatchesOptionExact ⟨("-L, --location").toList, [], 0, 0⟩ ['o', 'c'] = false ∧
    MatchesOption ⟨("-L, --location").toList, [], 0, 0⟩ ['o', 'c'] = true :=
  c7_option_matchers _ rfl

/-- C10: all four match predicates accept the empty query on every
section (each one returns early on an empty query, including the exact
matcher, for which no dash-stripped token need equal the empty string). -/
theorem c10_empty_query (s : Section) :
    MatchesQuery s [] = true ∧ MatchesOption s [] = true ∧
    MatchesOptionExact s [] = true ∧ MatchesDescription s [] = true :=
  ⟨rfl, rfl, rfl, rfl⟩

/-! ## C3: the heading rule -/

/-- The header pattern holds of a trimmed line exactly when the line is
non-empty, starts with an uppercase letter, consists of uppercase letters
and spaces only — and has at least two characters (the pattern's `+`
requires one character after the leading letter). -/
lemma sectionHeaderMatch_iff (t : Str) :
    sectionHeaderMatch t = true ↔
      (∃ c r, t = c :: r ∧ isUpperAZ c = true) ∧
        (∀ d ∈ t, isUpperAZ d = true ∨ d = ' ') ∧ 2 ≤ t.length := by
  cases t with
  | nil => simp [sectionHeaderMatch]
  | cons c r =>
    simp only [sectionHeaderMatch, Bool.and_eq_true, List.all_eq_true]
    constructor
    · rintro ⟨⟨h1, h2⟩, h3⟩
      refine ⟨⟨c, r, rfl, h1⟩, ?_, ?_⟩
      · intro d hd
        rcases List.mem_cons.mp hd with h | h
        · exact Or.inl (h ▸ h1)
        · simpa using h3 d h
      · have hr : r ≠ [] := by simpa using h2
        cases r with
        | nil => exact absurd rfl hr
        | cons _ _ => simp
    · rintro ⟨⟨c', r', he, hc⟩, hall, hlen⟩
      obtain ⟨rfl, rfl⟩ : c = c' ∧ r = r' := by
        have := he
        simp only [List.cons.injEq] at this
        exact this
      refine ⟨⟨hc, ?_⟩, ?_⟩
      · cases r with
        | nil => simp at hlen
        | cons _ _ => simp
      · intro d hd
        simpa using hall d (List.mem_cons_of_mem _ hd)

/-- Membership in `parseManSections`: a marker for line `k` exists exactly
when line `k` trims to a match of the header pattern. -/
lemma parseManSections_mem (lines : List Str) (m : ManSection) :
    m ∈ parseManSections lines ↔
      ∃ l, lines[m.StartLine]? = some l ∧ trimSpace l ≠ [] ∧
        sectionHeaderMatch (trimSpace l) = true ∧ m.Name = trimSpace l := by
  unfold parseManSections
  rw [List.mem_filterMap]
  constructor
  · rintro ⟨⟨i, l⟩, hmem, hf⟩
    rw [List.mem_enum_iff_getElem?] at hmem
    simp only at hf
    split at hf
    · exact absurd hf (by simp)
    · split at hf
      · refine ⟨l, ?_, by assumption, by assumption, ?_⟩
        · have hm : m = ⟨trimSpace l, i⟩ := by
            have := hf
            simp only [Option.some.injEq] at this
            exact this.symm
          rw [hm]
          exact hmem
        · have := hf
          simp only [Option.some.injEq] at this
          rw [← this]
      · exact absurd hf (by simp)
  · rintro ⟨l, hget, hne, hmatch, hname⟩
    refine ⟨(m.StartLine, l), ?_, ?_⟩
    · rw [List.mem_enum_iff_getElem?]
      exact hget
    · simp only
      rw [if_neg hne, if_pos hmatch]
      cases m
      simp only at hname
      simp [hname]

/-- C3 (counterexample): the line `A` satisfies the claim's heading rule
(trimmed it is non-empty, starts with an uppercase letter, and every
character is an uppercase letter or a space), yet segmentation records no
heading marker for it: the header pattern needs at least two characters. -/
theorem c3_counterexample :
    trimSpace ['A'] = ['A'] ∧ isUpperAZ 'A' = true ∧
    (∀ d ∈ trimSpace ['A'], isUpperAZ d = true ∨ d = ' ') ∧
    parseManSections [['A']] = [] ∧
    ¬∃ m ∈ parseManSections [['A']], m.StartLine = 0 := by
  decide

/-- C3 (amended): a line is recorded as a heading marker iff, after
trimming, it is non-empty, starts with an uppercase letter, every
character is an uppercase letter or a space, and it is at least two
characters long (so a line trimming to a single uppercase letter is not
a heading). -/
theorem c3_amended (lines : List Str) (k : Nat) :
    (∃ m ∈ parseManSections lines, m.StartLine = k) ↔
      (∃ l, lines[k]? = some l ∧
        (∃ c r, trimSpace l = c :: r ∧ isUpperAZ c = true) ∧
        (∀ d ∈ trimSpace l, isUpperAZ d = true ∨ d = ' ') ∧
        2 ≤ (trimSpace l).length) := by
  constructor
  · rintro ⟨m, hm, rfl⟩
    obtain ⟨l, hget, hne, hmatch, -⟩ := (parseManSections_mem lines m).mp hm
    obtain ⟨hex, hall, hlen⟩ := (sectionHeaderMatch_iff _).mp hmatch
    exact ⟨l, hget, hex, hall, hlen⟩
  · rintro ⟨l, hget, hex, hall, hlen⟩
    refine ⟨⟨trimSpace l, k⟩, ?_, rfl⟩
    rw [parseManSections_mem]
    refine ⟨l, hget, ?_, ?_, rfl⟩
    · obtain ⟨c, r, he, -⟩ := hex
      simp [he]
    · exact (sectionHeaderMatch_iff _).mpr ⟨hex, hall, hlen⟩

/-! ## C2 and C9: structure of the option-section scan -/

/-- A blank line consists of whitespace only. -/
lemma isBlank_all_space {l : Str} (h : isBlank l = true) : ∀ c ∈ l, isSpaceGo c = true := by
  intro c hc
  unfold isBlank trimSpace at h
  rw [List.isEmpty_iff, List.reverse_eq_nil_iff, List.dropWhile_eq_nil_iff] at h
  have hsplit : c ∈ l.takeWhile isSpaceGo ++ l.dropWhile isSpaceGo := by
    rw [List.takeWhile_append_dropWhile]; exact hc
  rcases List.mem_append.mp hsplit with h1 | h2
  · exact List.mem_takeWhile_imp h1
  · exact h c (List.mem_reverse.mpr h2)

/-- A blank line cannot match the option-definition pattern. -/
lemma blank_no_candidate {l : Str} (h : isBlank l = true) : optionDefMatch l = false := by
  by_contra hb
  rw [Bool.not_eq_false] at hb
  unfold optionDefMatch at hb
  rw [List.any_eq_true] at hb
  obtain ⟨k, -, hk⟩ := hb
  unfold optionDefAt at hk
  rw [Bool.and_eq_true] at hk
  obtain ⟨-, hk2⟩ := hk
  rcases hd : l.drop k with - | ⟨c, rest⟩
  · rw [hd] at hk2; simp at hk2
  · rcases rest with - | ⟨d, rest2⟩
    · rw [hd] at hk2; simp at hk2
    · rw [hd] at hk2
      simp only [Bool.and_eq_true, decide_eq_true_eq] at hk2
      have hc : c ∈ l := List.drop_subset k l (by rw [hd]; exact List.mem_cons_self c _)
      have := isBlank_all_space h c hc
      rw [hk2.1] at this
      exact absurd this (by decide)

/-- The unconsumed remainder returned by the explanation collector is a
suffix of its input. -/
lemma collectExpl_suffix (ind : Nat) (rs : List Str) : (collectExpl ind rs).2 <:+ rs := by
  induction rs using collectExpl.induct ind with
  | case1 => simp [collectExpl]
  | case2 l tail hbl hdw =>
    simp only [collectExpl, hbl, if_pos, hdw]
    exact List.suffix_rfl
  | case3 l tail hbl pk tl hdw hcond e rem hce ih =>
    rw [hce] at ih
    simp only [collectExpl, hbl, if_pos, hdw, hcond, hce]
    exact ih.trans (List.suffix_cons _ _)
  | case4 l tail hbl pk tl hdw hcond =>
    simp only [collectExpl, hbl, if_pos, hdw, if_neg hcond]
    exact List.suffix_rfl
  | case5 l tail hbl hdef =>
    simp only [collectExpl, if_neg hbl, hdef, if_pos]
    exact List.suffix_rfl
  | case6 l tail hbl hdef hind =>
    simp only [collectExpl, if_neg hbl, if_neg hdef, if_pos hind]
    exact List.suffix_rfl
  | case7 l tail hbl hdef hind e rem hce ih =>
    rw [hce] at ih
    simp only [collectExpl, if_neg hbl, if_neg hdef, if_neg hind, hce]
    exact ih.trans (List.suffix_cons _ _)

lemma collectExpl_length_le (ind : Nat) (rs : List Str) :
    (collectExpl ind rs).2.length ≤ rs.length :=
  (collectExpl_suffix ind rs).length_le

/-- The remainder is exactly the suffix of the input past the consumed
lines. -/
lemma collectExpl_drop (ind : Nat) (rs : List Str) :
    rs.drop (rs.length - (collectExpl ind rs).2.length) = (collectExpl ind rs).2 := by
  set rem := (collectExpl ind rs).2 with hrem
  obtain ⟨t, ht⟩ := collectExpl_suffix ind rs
  have hlen : rs.length = t.length + rem.length := by rw [← ht]; simp
  rw [hlen, Nat.add_sub_cancel, ← ht, List.drop_left]

/-- No line consumed by the explanation collector matches the
option-definition pattern (blank lines are whitespace-only; other
consumed lines pass the explicit non-candidate guard). -/
lemma collectExpl_no_candidate (ind : Nat) (rs : List Str) :
    ∀ x ∈ rs.take (rs.length - (collectExpl ind rs).2.length),
      optionDefMatch x = false := by
  induction rs using collectExpl.induct ind with
  | case1 => simp [collectExpl]
  | case2 l tail hbl hdw =>
    simp only [collectExpl, hbl, if_pos, hdw]
    simp
  | case3 l tail hbl pk tl hdw hcond e rem hce ih =>
    rw [hce] at ih
    simp only [collectExpl, hbl, if_pos, hdw, hcond, hce]
    have hle : rem.length ≤ tail.length := by
      have := collectExpl_length_le ind tail
      rw [hce] at this; exact this
    have hn : (l :: tail).length - rem.length = (tail.length - rem.length) + 1 := by
      simp only [List.length_cons]; omega
    rw [hn, List.take_succ_cons]
    intro x hx
    rcases List.mem_cons.mp hx with rfl | hx'
    · exact blank_no_candidate hbl
    · exact ih x hx'
  | case4 l tail hbl pk tl hdw hcond =>
    simp only [collectExpl, hbl, if_pos, hdw, if_neg hcond]
    simp
  | case5 l tail hbl hdef =>
    simp only [collectExpl, if_neg hbl, hdef, if_pos]
    simp
  | case6 l tail hbl hdef hind =>
    simp only [collectExpl, if_neg hbl, if_neg hdef, if_pos hind]
    simp
  | case7 l tail hbl hdef hind e rem hce ih =>
    rw [hce] at ih
    simp only [collectExpl, if_neg hbl, if_neg hdef, if_neg hind, hce]
    have hle : rem.length ≤ tail.length := by
      have := collectExpl_length_le ind tail
      rw [hce] at this; exact this
    have hn : (l :: tail).length - rem.length = (tail.length - rem.length) + 1 := by
      simp only [List.length_cons]; omega
    rw [hn, List.take_succ_cons]
    intro x hx
    rcases List.mem_cons.mp hx with rfl | hx'
    · by_contra hb
      rw [Bool.not_eq_false] at hb
      exact hdef (by rw [hb]; simp)
    · exact ih x hx'

/-- Every section produced by the scan loop has `StartLine ≤ EndLine` and
a non-empty flag text starting with `-`. -/
lemma parseLoopF_wf (fuel : Nat) (rs : List Str) (i : Nat) :
    ∀ s ∈ parseLoopF fuel rs i,
      s.StartLine ≤ s.EndLine ∧ s.Option ≠ [] ∧ s.Option.head? = some '-' := by
  induction fuel, rs, i using parseLoopF.induct with
  | case1 rs i => simp [parseLoopF]
  | case2 fuel i => simp [parseLoopF]
  | case3 fuel line rest i hdef trm hrej ih =>
    intro s hs
    refine ih s ?_
    simpa only [parseLoopF, hdef, if_pos, if_true, hrej] using hs
  | case4 fuel line rest i hdef trm hrej hlong ih =>
    intro s hs
    refine ih s ?_
    simpa only [parseLoopF, hdef, if_pos, if_true, if_neg hrej, hlong] using hs
  | case5 fuel line rest i hdef trm hrej hlong hmulti ih =>
    intro s hs
    refine ih s ?_
    simpa only [parseLoopF, hdef, if_pos, if_true, if_neg hrej, if_neg hlong,
      hmulti] using hs
  | case6 fuel line rest i hdef trm hrej hlong hmulti oind e rem hce iEnd sec hkeep ih =>
    intro s hs
    simp only [parseLoopF, hdef, if_pos, if_true, if_neg hrej, if_neg hlong,
      if_neg hmulti, hce, if_pos hkeep, List.mem_cons] at hs
    rcases hs with rfl | hs'
    · refine ⟨?_, hkeep.1, hkeep.2⟩
      simp only [List.length_cons]
      omega
    · exact ih s hs'
  | case7 fuel line rest i hdef trm hrej hlong hmulti oind e rem hce iEnd sec hkeep ih =>
    intro s hs
    refine ih s ?_
    simpa only [parseLoopF, hdef, if_pos, if_true, if_neg hrej, if_neg hlong,
      if_neg hmulti, hce, if_neg hkeep] using hs
  | case8 fuel line rest i hdef ih =>
    intro s hs
    refine ih s ?_
    simpa only [parseLoopF, hdef, Bool.false_eq_true, if_false] using hs

/-- The full acceptance condition of the option scan at one line: the
option-definition pattern matches and none of the three rejection checks
fires. -/
def acceptedCandidate (l : Str) : Bool :=
  optionDefMatch l &&
    !decide (trimSpace l = [] ∨ (trimSpace l).head? ≠ some '-') &&
    !decide ((trimSpace l).length > maxOptionLineLength) &&
    !multiOptionListMatch (trimSpace l)

lemma acceptedCandidate_iff (l : Str) :
    acceptedCandidate l = true ↔
      optionDefMatch l = true ∧
        ¬(trimSpace l = [] ∨ (trimSpace l).head? ≠ some '-') ∧
        ¬((trimSpace l).length > maxOptionLineLength) ∧
        ¬(multiOptionListMatch (trimSpace l) = true) := by
  unfold acceptedCandidate
  simp only [Bool.and_eq_true, Bool.not_eq_true', decide_eq_false_iff_not,
    Bool.not_eq_true]
  tauto

/-- From `lines.drop i = l :: rest`, read off line `i` and the drop at
`i + 1`. -/
lemma drop_cons_split {lines : List Str} {i : Nat} {l : Str} {rest : List Str}
    (h : lines.drop i = l :: rest) :
    lines[i]? = some l ∧ lines.drop (i + 1) = rest := by
  constructor
  · have h0 := List.getElem?_drop lines i 0
    rw [h] at h0
    simpa using h0.symm
  · have h1 : lines.drop (i + 1) = (lines.drop i).drop 1 := by
      rw [List.drop_drop]
    rw [h1, h]
    rfl

/-- Membership of a start line in the scan's output: position `k` (at or
past the scan position `i`) starts a section iff line `k` satisfies the
full acceptance condition. -/
lemma parseLoopF_startLine_iff (lines : List Str) :
    ∀ (fuel : Nat) (rs : List Str) (i : Nat), rs.length ≤ fuel → lines.drop i = rs →
      ∀ k, (∃ s ∈ parseLoopF fuel rs i, s.StartLine = k) ↔
        (i ≤ k ∧ ∃ l, lines[k]? = some l ∧ acceptedCandidate l = true) := by
  intro fuel rs i
  induction fuel, rs, i using parseLoopF.induct with
  | case1 rs i =>
    intro hfuel hdrop k
    have hrs : rs = [] := List.length_eq_zero.mp (Nat.le_zero.mp hfuel)
    subst hrs
    have hlen : lines.length ≤ i := List.drop_eq_nil_iff.mp hdrop
    simp only [parseLoopF, List.not_mem_nil, false_and, exists_false, false_iff]
    rintro ⟨hik, l, hget, -⟩
    rw [List.getElem?_eq_none (by omega)] at hget
    exact Option.noConfusion hget
  | case2 fuel i =>
    intro hfuel hdrop k
    have hlen : lines.length ≤ i := List.drop_eq_nil_iff.mp hdrop
    simp only [parseLoopF, List.not_mem_nil, false_and, exists_false, false_iff]
    rintro ⟨hik, l, hget, -⟩
    rw [List.getElem?_eq_none (by omega)] at hget
    exact Option.noConfusion hget
  | case3 fuel line rest i hdef trm hrej ih =>
    intro hfuel hdrop k
    obtain ⟨hget, hdrop'⟩ := drop_cons_split hdrop
    have hfuel' : rest.length ≤ fuel := by
      simp only [List.length_cons] at hfuel; omega
    have hiff := ih hfuel' hdrop' k
    have hred : parseLoopF (fuel + 1) (line :: rest) i = parseLoopF fuel rest (i + 1) := by
      simp only [parseLoopF, hdef, if_pos, if_true, hrej]
    rw [hred, hiff]
    have hPi : acceptedCandidate line = false := by
      rw [← Bool.not_eq_true, acceptedCandidate_iff]
      tauto
    constructor
    · rintro ⟨hik, hP⟩
      exact ⟨by omega, hP⟩
    · rintro ⟨hik, l, hgetl, haccl⟩
      rcases Nat.eq_or_lt_of_le hik with rfl | hlt
      · rw [hget] at hgetl
        cases hgetl
        rw [haccl] at hPi
        exact Bool.noConfusion hPi
      · exact ⟨hlt, l, hgetl, haccl⟩
  | case4 fuel line rest i hdef trm hrej hlong ih =>
    intro hfuel hdrop k
    obtain ⟨hget, hdrop'⟩ := drop_cons_split hdrop
    have hfuel' : rest.length ≤ fuel := by
      simp only [List.length_cons] at hfuel; omega
    have hiff := ih hfuel' hdrop' k
    have hred : parseLoopF (fuel + 1) (line :: rest) i = parseLoopF fuel rest (i + 1) := by
      simp only [parseLoopF, hdef, if_pos, if_true, if_neg hrej, hlong]
    rw [hred, hiff]
    have hPi : acceptedCandidate line = false := by
      rw [← Bool.not_eq_true, acceptedCandidate_iff]
      tauto
    constructor
    · rintro ⟨hik, hP⟩
      exact ⟨by omega, hP⟩
    · rintro ⟨hik, l, hgetl, haccl⟩
      rcases Nat.eq_or_lt_of_le hik with rfl | hlt
      · rw [hget] at hgetl
        cases hgetl
        rw [haccl] at hPi
        exact Bool.noConfusion hPi
      · exact ⟨hlt, l, hgetl, haccl⟩
  | case5 fuel line rest i hdef trm hrej hlong hmulti ih =>
    intro hfuel hdrop k
    obtain ⟨hget, hdrop'⟩ := drop_cons_split hdrop
    have hfuel' : rest.length ≤ fuel := by
      simp only [List.length_cons] at hfuel; omega
    have hiff := ih hfuel' hdrop' k
    have hred : parseLoopF (fuel + 1) (line :: rest) i = parseLoopF fuel rest (i + 1) := by
      simp only [parseLoopF, hdef, if_pos, if_true, if_neg hrej, if_neg hlong, hmulti]
    rw [hred, hiff]
    have hPi : acceptedCandidate line = false := by
      rw [← Bool.not_eq_true, acceptedCandidate_iff]
      rintro ⟨-, -, -, hm⟩
      exact hm hmulti
    constructor
    · rintro ⟨hik, hP⟩
      exact ⟨by omega, hP⟩
    · rintro ⟨hik, l, hgetl, haccl⟩
      rcases Nat.eq_or_lt_of_le hik with rfl | hlt
      · rw [hget] at hgetl
        cases hgetl
        rw [haccl] at hPi
        exact Bool.noConfusion hPi
      · exact ⟨hlt, l, hgetl, haccl⟩
  | case6 fuel line rest i hdef trm hrej hlong hmulti oind e rem hce iEnd sec hkeep ih =>
    intro hfuel hdrop k
    obtain ⟨hget, hdrop'⟩ := drop_cons_split hdrop
    have hfuel0 : rest.length ≤ fuel := by
      simp only [List.length_cons] at hfuel; omega
    have hremlen : rem.length ≤ rest.length := by
      have := collectExpl_length_le oind rest
      rw [hce] at this
      exact this
    have hfuel' : rem.length ≤ fuel := le_trans hremlen hfuel0
    have hdropEnd : lines.drop (i + 1 + (rest.length - rem.length)) = rem := by
      rw [← List.drop_drop, hdrop']
      have := collectExpl_drop oind rest
      rw [hce] at this
      exact this
    have hiff := ih hfuel' hdropEnd k
    have hacc : acceptedCandidate line = true := by
      rw [acceptedCandidate_iff]
      exact ⟨hdef, hrej, hlong, hmulti⟩
    have hred : parseLoopF (fuel + 1) (line :: rest) i =
        { Option := trimSpace line, Explanation := joinSpace e, StartLine := i,
          EndLine := i + 1 + (rest.length - rem.length) - 1 } ::
          parseLoopF fuel rem (i + 1 + (rest.length - rem.length)) := by
      simp only [parseLoopF, hdef, if_pos, if_true, if_neg hrej, if_neg hlong,
        if_neg hmulti, hce, if_pos hkeep]
    -- no accepted candidate lies strictly between `i` and the end of the
    -- collected explanation
    have hmid : ∀ k', i < k' → k' < i + 1 + (rest.length - rem.length) →
        ∀ l, lines[k']? = some l → acceptedCandidate l = false := by
      intro k' h1 h2 l hgetl
      have hm : k' - (i + 1) < rest.length - rem.length := by omega
      have : rest[k' - (i + 1)]? = some l := by
        have hdd := List.getElem?_drop lines (i + 1) (k' - (i + 1))
        rw [hdrop'] at hdd
        rw [hdd]
        have hk2 : i + 1 + (k' - (i + 1)) = k' := by omega
        rw [hk2]
        exact hgetl
      have hmem : l ∈ rest.take (rest.length - rem.length) := by
        apply List.getElem?_mem (n := k' - (i + 1))
        rw [List.getElem?_take_of_lt hm]
        exact this
      have hnc := collectExpl_no_candidate oind rest l (by rw [hce]; exact hmem)
      rw [← Bool.not_eq_true, acceptedCandidate_iff]
      rintro ⟨ha, -⟩
      rw [hnc] at ha
      exact Bool.noConfusion ha
    rw [hred]
    constructor
    · rintro ⟨s, hs, rfl⟩
      rcases List.mem_cons.mp hs with rfl | hs'
      · exact ⟨le_refl _, line, hget, hacc⟩
      · obtain ⟨hik, hP⟩ := (hiff.mp ⟨s, hs', rfl⟩)
        exact ⟨by omega, hP⟩
    · rintro ⟨hik, l, hgetl, haccl⟩
      rcases Nat.eq_or_lt_of_le hik with rfl | hlt
      · refine ⟨_, List.mem_cons_self _ _, rfl⟩
      · have hend : i + 1 + (rest.length - rem.length) ≤ k := by
          by_contra hcon
          have := hmid k hlt (by omega) l hgetl
          rw [haccl] at this
          exact Bool.noConfusion this
        obtain ⟨s, hs, hsk⟩ := hiff.mpr ⟨hend, l, hgetl, haccl⟩
        exact ⟨s, List.mem_cons_of_mem _ hs, hsk⟩
  | case7 fuel line rest i hdef trm hrej hlong hmulti oind e rem hce iEnd sec hkeep ih =>
    -- unreachable in fact (the keep-check follows from the earlier
    -- rejection check), but the branch exists in the source
    exact absurd ⟨fun h => hrej (Or.inl h), not_not.mp (fun h => hrej (Or.inr h))⟩ hkeep
  | case8 fuel line rest i hdef ih =>
    intro hfuel hdrop k
    obtain ⟨hget, hdrop'⟩ := drop_cons_split hdrop
    have hfuel' : rest.length ≤ fuel := by
      simp only [List.length_cons] at hfuel; omega
    have hiff := ih hfuel' hdrop' k
    have hred : parseLoopF (fuel + 1) (line :: rest) i = parseLoopF fuel rest (i + 1) := by
      simp only [parseLoopF, hdef, Bool.false_eq_true, if_false]
    rw [hred, hiff]
    have hPi : acceptedCandidate line = false := by
      rw [← Bool.not_eq_true, acceptedCandidate_iff]
      rintro ⟨ha, -⟩
      exact hdef ha
    constructor
    · rintro ⟨hik, hP⟩
      exact ⟨by omega, hP⟩
    · rintro ⟨hik, l, hgetl, haccl⟩
      rcases Nat.eq_or_lt_of_le hik with rfl | hlt
      · rw [hget] at hgetl
        cases hgetl
        rw [haccl] at hPi
        exact Bool.noConfusion hPi
      · exact ⟨hlt, l, hgetl, haccl⟩

/-- A candidate line for the C2 counterexample: matches the pattern,
trims to a 62-character string starting with `-`, and is not a
multi-option list. -/
def c2long : Str := ("     -x ").toList ++ List.replicate 59 'a'

/-- C2 (counterexample): this line matches the option-candidate pattern,
its trimmed form is non-empty, starts with `-`, and is not a
comma-separated list of long flags — yet it starts no section, because
its trimmed length (62) exceeds `maxOptionLineLength` (60), a third
rejection check the claim omits. -/
theorem c2_counterexample :
    optionDefMatch c2long = true ∧
    trimSpace c2long ≠ [] ∧
    (trimSpace c2long).head? = some '-' ∧
    multiOptionListMatch (trimSpace c2long) = false ∧
    ¬∃ s ∈ parseOptionSections [c2long], s.StartLine = 0 := by
  decide

/-- C2 (amended): a line starts a section exactly when it matches the
option-candidate pattern, its trimmed form is non-empty, starts with
`-`, has length at most `maxOptionLineLength`, and is not a
comma-separated list of long-flag tokens; these three rejection checks
are the only conditions under which a candidate line does not start a
section. -/
theorem c2_amended (lines : List Str) (k : Nat) :
    (∃ s ∈ parseOptionSections lines, s.StartLine = k) ↔
      (∃ l, lines[k]? = some l ∧ optionDefMatch l = true ∧
        trimSpace l ≠ [] ∧ (trimSpace l).head? = some '-' ∧
        (trimSpace l).length ≤ maxOptionLineLength ∧
        multiOptionListMatch (trimSpace l) = false) := by
  have h := parseLoopF_startLine_iff lines lines.length lines 0 (le_refl _) rfl k
  unfold parseOptionSections
  rw [h]
  constructor
  · rintro ⟨-, l, hget, hacc⟩
    rw [acceptedCandidate_iff] at hacc
    obtain ⟨h1, h2, h3, h4⟩ := hacc
    push_neg at h2
    refine ⟨l, hget, h1, h2.1, h2.2, by omega, ?_⟩
    simpa using h4
  · rintro ⟨l, hget, h1, h2, h3, h4, h5⟩
    refine ⟨Nat.zero_le k, l, hget, ?_⟩
    rw [acceptedCandidate_iff]
    refine ⟨h1, ?_, by omega, by simp [h5]⟩
    rintro (he | hh)
    · exact h2 he
    · exact hh h3

/-- C9: every option section returned by segmentation satisfies
`StartLine ≤ EndLine` and has a non-empty flag text whose first character
is `-`. -/
theorem c9_section_invariants (lines : List Str) (s : Section)
    (hs : s ∈ parseOptionSections lines) :
    s.StartLine ≤ s.EndLine ∧ s.Option ≠ [] ∧ s.Option.head? = some '-' :=
  parseLoopF_wf lines.length lines 0 s hs

/-- C9 witness: the invariants at a concrete parsed section. -/
theorem c9_witness :
    (⟨("-r   copies").toList, [], 0, 0⟩ : Section).StartLine ≤
        (⟨("-r   copies").toList, [], 0, 0⟩ : Section).EndLine ∧
      (⟨("-r   copies").toList, [], 0, 0⟩ : Section).Option ≠ [] ∧
      (⟨("-r   copies").toList, [], 0, 0⟩ : Section).Option.head? = some '-' :=
  c9_section_invariants [("     -r   copies").toList] _ (by decide)

/-! ## C5 and C8: match navigation and pane cycling -/

lemma scrollToCurrentMatch_currentMatch (v : Viewer) :
    (scrollToCurrentMatch v).currentMatch = v.currentMatch := by
  unfold scrollToCurrentMatch centerScroll adjustSidebarScroll
  dsimp only
  split_ifs <;> rfl

lemma tmod_self_nat (n : Nat) : Int.tmod (n : Int) (n : Int) = 0 := by
  cases n <;> simp [Int.tmod]

/-- C5: with a non-empty match set of size `n`, a next-match event at
index `n − 1` wraps to 0 and a previous-match event at index 0 wraps to
`n − 1`; with zero matches both events leave the state unchanged. -/
theorem c5_match_wraparound (v : Viewer) (n : Nat) (hmode : v.mode = ModeNormal)
    (hn : totalMatches v = n) :
    (0 < n → v.currentMatch = (n : Int) - 1 → (update v keyNLower).currentMatch = 0) ∧
    (0 < n → v.currentMatch = 0 → (update v keyNUpper).currentMatch = (n : Int) - 1) ∧
    (n = 0 → update v keyNLower = v ∧ update v keyNUpper = v) := by
  have hne : update v keyNLower = updateNormal v keyNLower := by
    unfold update; rw [hmode]
  have hNe : update v keyNUpper = updateNormal v keyNUpper := by
    unfold update; rw [hmode]
  have hredn : updateNormal v keyNLower =
      (if totalMatches v > 0 then
        { scrollToCurrentMatch
            { v with currentMatch := Int.tmod (v.currentMatch + 1) ((totalMatches v : Nat) : Int) } with
          focusPane := PaneContent }
      else v) := rfl
  have hredN : updateNormal v keyNUpper =
      (if totalMatches v > 0 then
        { scrollToCurrentMatch
            { v with currentMatch :=
              if v.currentMatch - 1 < 0 then ((totalMatches v : Nat) : Int) - 1
              else v.currentMatch - 1 } with
          focusPane := PaneContent }
      else v) := rfl
  refine ⟨?_, ?_, ?_⟩
  · intro hpos hcur
    rw [hne, hredn, if_pos (by omega)]
    show (scrollToCurrentMatch _).currentMatch = 0
    rw [scrollToCurrentMatch_currentMatch]
    show Int.tmod (v.currentMatch + 1) ((totalMatches v : Nat) : Int) = 0
    rw [hcur, hn]
    have : (n : Int) - 1 + 1 = (n : Int) := by ring
    rw [this, tmod_self_nat]
  · intro hpos hcur
    rw [hNe, hredN, if_pos (by omega)]
    show (scrollToCurrentMatch _).currentMatch = (n : Int) - 1
    rw [scrollToCurrentMatch_currentMatch]
    show (if v.currentMatch - 1 < 0 then ((totalMatches v : Nat) : Int) - 1
          else v.currentMatch - 1) = (n : Int) - 1
    rw [hcur, hn, if_pos (by omega)]
  · intro h0
    constructor
    · rw [hne, hredn, if_neg (by omega)]
    · rw [hNe, hredN, if_neg (by omega)]

/-- A concrete viewer state for witnesses. -/
def baseViewer : Viewer :=
  { content := { Lines := [['a'], ['b']], Sections := [], ManSections := [] },
    mode := ModeNormal, focusPane := 1, sidebarCursor := 0, sidebarScrollOffset := 0,
    searchInput := [], searchQuery := [], searchType := SearchAll,
    filteredIndices := [], matchingLines := [], currentMatch := 0,
    scrollOffset := 0, contentCursor := 0, width := 80, height := 24,
    quitting := false, sectionCursor := 0, sectionScrollOffset := 0 }

/-- C5 witness: wraparound at a concrete state with one line match. -/
theorem c5_witness :
    (0 < 1 →
      ({ baseViewer with matchingLines := [0] } : Viewer).currentMatch = (1 : Int) - 1 →
      (update { baseViewer with matchingLines := [0] } keyNLower).currentMatch = 0) ∧
    (0 < 1 →
      ({ baseViewer with matchingLines := [0] } : Viewer).currentMatch = 0 →
      (update { baseViewer with matchingLines := [0] } keyNUpper).currentMatch = (1 : Int) - 1) ∧
    (1 = 0 →
      update { baseViewer with matchingLines := [0] } keyNLower =
          { baseViewer with matchingLines := [0] } ∧
        update { baseViewer with matchingLines := [0] } keyNUpper =
          { baseViewer with matchingLines := [0] }) :=
  c5_match_wraparound { baseViewer with matchingLines := [0] } 1 (by decide) (by decide)

/-- A concrete viewer in search-input mode with the sidebar focused. -/
def c8SearchViewer : Viewer := { baseViewer with mode := ModeSearch, focusPane := 0 }

/-- C8 (counterexample): in search-input mode a forward pane-cycling
event does not advance the focused pane: `tab` is only handled in normal
mode, so the state is returned unchanged. -/
theorem c8_counterexample :
    c8SearchViewer.mode = ModeSearch ∧
    (update c8SearchViewer keyTab).focusPane = 0 ∧
    Int.tmod (c8SearchViewer.focusPane + 1) PaneCount = 1 ∧
    (update c8SearchViewer keyTab).focusPane ≠
      Int.tmod (c8SearchViewer.focusPane + 1) PaneCount := by
  decide

/-- C8 (amended): pane cycling applies only in normal mode: there `tab`
advances and `shift+tab` retreats the focused pane modulo the number of
panes; in the search, section-picker and help modes both events leave
the focused pane unchanged. -/
theorem c8_amended (v : Viewer) :
    ((update v keyTab).focusPane =
      if v.mode = ModeNormal then Int.tmod (v.focusPane + 1) PaneCount
      else v.focusPane) ∧
    ((update v keyShiftTab).focusPane =
      if v.mode = ModeNormal then Int.tmod (v.focusPane + PaneCount - 1) PaneCount
      else v.focusPane) := by
  cases hm : v.mode
  case ModeNormal =>
    have h1 : update v keyTab = updateNormal v keyTab := by unfold update; rw [hm]
    have h2 : update v keyShiftTab = updateNormal v keyShiftTab := by unfold update; rw [hm]
    have h1' : updateNormal v keyTab =
        { v with focusPane := Int.tmod (v.focusPane + 1) PaneCount } := rfl
    have h2' : updateNormal v keyShiftTab =
        { v with focusPane := Int.tmod (v.focusPane + PaneCount - 1) PaneCount } := rfl
    rw [h1, h2, h1', h2']
    exact ⟨by simp, by simp⟩
  case ModeSearch =>
    have h1 : update v keyTab = updateSearch v keyTab := by unfold update; rw [hm]
    have h2 : update v keyShiftTab = updateSearch v keyShiftTab := by unfold update; rw [hm]
    have h1' : updateSearch v keyTab = v := rfl
    have h2' : updateSearch v keyShiftTab = v := rfl
    rw [h1, h2, h1', h2']
    exact ⟨by simp, by simp⟩
  case ModeHelp =>
    have h1 : update v keyTab = updateHelp v keyTab := by unfold update; rw [hm]
    have h2 : update v keyShiftTab = updateHelp v keyShiftTab := by unfold update; rw [hm]
    have h1' : updateHelp v keyTab = v := rfl
    have h2' : updateHelp v keyShiftTab = v := rfl
    rw [h1, h2, h1', h2']
    exact ⟨by simp, by simp⟩
  case ModeSectionSelect =>
    have h1 : update v keyTab = updateSectionSelect v keyTab := by unfold update; rw [hm]
    have h2 : update v keyShiftTab = updateSectionSelect v keyShiftTab := by
      unfold update; rw [hm]
    have h1' : updateSectionSelect v keyTab =
        (if v.content.ManSections = [] then { v with mode := ModeNormal } else v) := rfl
    have h2' : updateSectionSelect v keyShiftTab =
        (if v.content.ManSections = [] then { v with mode := ModeNormal } else v) := rfl
    rw [h1, h2, h1', h2']
    simp only [show (ModeSectionSelect = ModeNormal) = False from by simp, if_false]
    constructor <;> · split_ifs <;> rfl

/-- C8 witness: pane cycling at a concrete normal-mode state. -/
theorem c8_witness :
    ((update baseViewer keyTab).focusPane =
      if baseViewer.mode = ModeNormal then Int.tmod (baseViewer.focusPane + 1) PaneCount
      else baseViewer.focusPane) ∧
    ((update baseViewer keyShiftTab).focusPane =
      if baseViewer.mode = ModeNormal then Int.tmod (baseViewer.focusPane + PaneCount - 1) PaneCount
      else baseViewer.focusPane) :=
  c8_amended baseViewer

/-! ## C4: sidebar cursor vs. the filtered option list -/

/-- A viewer about to commit the description search `z`, which matches
only the second of its two sections. -/
def c4Viewer : Viewer :=
  { baseViewer with
      content := { Lines := [['x'], ['y'], ['z']],
                   Sections := [⟨("-a").toList, ("alpha").toList, 0, 0⟩,
                                ⟨("-b").toList, ("zeta").toList, 1, 1⟩],
                   ManSections := [] },
      mode := ModeSearch, searchType := SearchDescription, searchInput := ['z'] }

/-- C4 (code bug): committing a description search whose single match is
the section at full-list index 1 leaves the option-list pane's cursor at
1, outside the filtered subset's valid range `[0, 0]`:
`scrollToCurrentMatch` assigns the full section-list index to
`sidebarCursor`, although every consumer (`updateSidebar`,
`getDisplayedSectionIndices`-based rendering) indexes the filtered list
with it — in Go, a subsequent `enter` in the sidebar then indexes
`displayedIndices[1]` out of range and panics. -/
theorem c4_bug_evaluation :
    (update c4Viewer keyEnter).filteredIndices = [1] ∧
    (getDisplayedSectionIndices (update c4Viewer keyEnter)).length = 1 ∧
    (update c4Viewer keyEnter).sidebarCursor = 1 ∧
    ¬((update c4Viewer keyEnter).sidebarCursor ≤
        ((update c4Viewer keyEnter).filteredIndices.length : Int) - 1) := by
  decide

/-! ## C6: the scroll-offset invariant -/

/-- The content-pane scroll invariant of the spec:
`scrollOffset ∈ [0, max(0, totalLines − viewportHeight)]`. -/
def scrollInRange (v : Viewer) : Prop :=
  0 ≤ v.scrollOffset ∧ v.scrollOffset ≤ maxScrollOf v

lemma maxScrollOf_congr {v w : Viewer} (hc : w.content = v.content)
    (hh : w.height = v.height) : maxScrollOf w = maxScrollOf v := by
  unfold maxScrollOf viewportHeight
  rw [hc, hh]

lemma centerScroll_ok (v : Viewer) (t : Int) :
    (centerScroll v t).content = v.content ∧ (centerScroll v t).height = v.height ∧
    0 ≤ (centerScroll v t).scrollOffset ∧
    (centerScroll v t).scrollOffset ≤ maxScrollOf v := by
  unfold centerScroll maxScrollOf viewportHeight
  dsimp only
  split_ifs <;> refine ⟨rfl, rfl, by omega, by omega⟩

lemma adjustSidebarScroll_fields (v : Viewer) :
    (adjustSidebarScroll v).content = v.content ∧
    (adjustSidebarScroll v).height = v.height ∧
    (adjustSidebarScroll v).scrollOffset = v.scrollOffset := by
  unfold adjustSidebarScroll
  dsimp only
  split_ifs <;> exact ⟨rfl, rfl, rfl⟩

lemma adjustSectionScroll_fields (v : Viewer) :
    (adjustSectionScroll v).content = v.content ∧
    (adjustSectionScroll v).height = v.height ∧
    (adjustSectionScroll v).scrollOffset = v.scrollOffset := by
  unfold adjustSectionScroll
  dsimp only
  split_ifs <;> exact ⟨rfl, rfl, rfl⟩

lemma scrollToCurrentMatch_ok (v : Viewer) (h : scrollInRange v) :
    (scrollToCurrentMatch v).content = v.content ∧
    (scrollToCurrentMatch v).height = v.height ∧
    0 ≤ (scrollToCurrentMatch v).scrollOffset ∧
    (scrollToCurrentMatch v).scrollOffset ≤ maxScrollOf v := by
  unfold scrollToCurrentMatch
  dsimp only
  split_ifs with h1 h2
  · exact centerScroll_ok v _
  · obtain ⟨hc, hh, hso⟩ := adjustSidebarScroll_fields
      { v with sidebarCursor := ((getIntD v.filteredIndices v.currentMatch 0 : Nat) : Int) }
    obtain ⟨hc2, hh2, hlo, hhi⟩ := centerScroll_ok
      (adjustSidebarScroll { v with sidebarCursor := ((getIntD v.filteredIndices v.currentMatch 0 : Nat) : Int) })
      ((v.content.Sections.getD (getIntD v.filteredIndices v.currentMatch 0) defaultSection).StartLine : Int)
    refine ⟨by rw [hc2, hc], by rw [hh2, hh], hlo, ?_⟩
    calc _ ≤ maxScrollOf (adjustSidebarScroll _) := hhi
    _ = maxScrollOf v := maxScrollOf_congr (by rw [hc]) (by rw [hh])
  · exact ⟨rfl, rfl, h.1, h.2⟩

/-- The three facts about `maxScrollOf` that the navigation proofs need. -/
lemma maxScrollOf_facts (v : Viewer) :
    0 ≤ maxScrollOf v ∧
    (v.content.Lines.length : Int) - viewportHeight v ≤ maxScrollOf v ∧
    (maxScrollOf v = 0 ∨ maxScrollOf v = (v.content.Lines.length : Int) - viewportHeight v) := by
  unfold maxScrollOf
  dsimp only
  split_ifs with hx
  · exact ⟨le_refl 0, by omega, Or.inl rfl⟩
  · exact ⟨by omega, by omega, Or.inr rfl⟩

set_option maxHeartbeats 4000000 in
lemma updateContent_ok (v : Viewer) (key : Str) (hne : v.content.Lines ≠ [])
    (h : scrollInRange v) :
    (updateContent v key).content = v.content ∧
    (updateContent v key).height = v.height ∧
    scrollInRange (updateContent v key) := by
  have hlen : 1 ≤ v.content.Lines.length := List.length_pos.mpr hne
  obtain ⟨h0, h1⟩ := h
  obtain ⟨hm0, hm1, hm2⟩ := maxScrollOf_facts v
  have hvp : viewportHeight v = v.height - 3 := rfl
  have hc : (updateContent v key).content = v.content := by
    simp only [updateContent, apply_ite (fun w : Viewer => w.content), ite_self]
  have hh : (updateContent v key).height = v.height := by
    simp only [updateContent, apply_ite (fun w : Viewer => w.height), ite_self]
  refine ⟨hc, hh, ?_, ?_⟩ <;>
  · try rw [maxScrollOf_congr hc hh]
    simp only [updateContent, apply_ite (fun w : Viewer => w.scrollOffset)]
    split_ifs <;> omega

lemma scrollInRange_mk {v w : Viewer} (hc : w.content = v.content)
    (hh : w.height = v.height) (h0 : 0 ≤ w.scrollOffset)
    (h1 : w.scrollOffset ≤ maxScrollOf v) : scrollInRange w :=
  ⟨h0, by rw [maxScrollOf_congr hc hh]; exact h1⟩

lemma adjustSidebarScroll_scrollOffset (v : Viewer) :
    (adjustSidebarScroll v).scrollOffset = v.scrollOffset :=
  (adjustSidebarScroll_fields v).2.2

lemma adjustSidebarScroll_content (v : Viewer) :
    (adjustSidebarScroll v).content = v.content :=
  (adjustSidebarScroll_fields v).1

lemma adjustSidebarScroll_height (v : Viewer) :
    (adjustSidebarScroll v).height = v.height :=
  (adjustSidebarScroll_fields v).2.1

lemma adjustSectionScroll_scrollOffset (v : Viewer) :
    (adjustSectionScroll v).scrollOffset = v.scrollOffset :=
  (adjustSectionScroll_fields v).2.2

lemma adjustSectionScroll_content (v : Viewer) :
    (adjustSectionScroll v).content = v.content :=
  (adjustSectionScroll_fields v).1

lemma adjustSectionScroll_height (v : Viewer) :
    (adjustSectionScroll v).height = v.height :=
  (adjustSectionScroll_fields v).2.1

set_option maxHeartbeats 4000000 in
lemma updateSidebar_ok (v : Viewer) (key : Str) (h : scrollInRange v) :
    (updateSidebar v key).content = v.content ∧
    (updateSidebar v key).height = v.height ∧
    scrollInRange (updateSidebar v key) := by
  obtain ⟨h0, h1⟩ := h
  obtain ⟨hm0, hm1, hm2⟩ := maxScrollOf_facts v
  have hc : (updateSidebar v key).content = v.content := by
    simp only [updateSidebar, adjustSidebarScroll_content,
      apply_ite (fun w : Viewer => w.content), ite_self]
  have hh : (updateSidebar v key).height = v.height := by
    simp only [updateSidebar, adjustSidebarScroll_height,
      apply_ite (fun w : Viewer => w.height), ite_self]
  refine ⟨hc, hh, ?_, ?_⟩ <;>
  · try rw [maxScrollOf_congr hc hh]
    simp only [updateSidebar, adjustSidebarScroll_scrollOffset,
      apply_ite (fun w : Viewer => w.scrollOffset)]
    split_ifs <;> omega

set_option maxHeartbeats 4000000 in
lemma updateSections_ok (v : Viewer) (key : Str) (h : scrollInRange v) :
    (updateSections v key).content = v.content ∧
    (updateSections v key).height = v.height ∧
    scrollInRange (updateSections v key) := by
  obtain ⟨h0, h1⟩ := h
  obtain ⟨hm0, hm1, hm2⟩ := maxScrollOf_facts v
  have hc : (updateSections v key).content = v.content := by
    simp only [updateSections, apply_ite (fun w : Viewer => w.content), ite_self]
  have hh : (updateSections v key).height = v.height := by
    simp only [updateSections, apply_ite (fun w : Viewer => w.height), ite_self]
  refine ⟨hc, hh, ?_, ?_⟩ <;>
  · try rw [maxScrollOf_congr hc hh]
    simp only [updateSections, apply_ite (fun w : Viewer => w.scrollOffset)]
    split_ifs <;> omega

set_option maxHeartbeats 4000000 in
lemma updateSectionSelect_ok (v : Viewer) (key : Str) (h : scrollInRange v) :
    (updateSectionSelect v key).content = v.content ∧
    (updateSectionSelect v key).height = v.height ∧
    scrollInRange (updateSectionSelect v key) := by
  obtain ⟨h0, h1⟩ := h
  obtain ⟨hm0, hm1, hm2⟩ := maxScrollOf_facts v
  have hc : (updateSectionSelect v key).content = v.content := by
    simp only [updateSectionSelect, adjustSectionScroll_content,
      apply_ite (fun w : Viewer => w.content), ite_self]
  have hh : (updateSectionSelect v key).height = v.height := by
    simp only [updateSectionSelect, adjustSectionScroll_height,
      apply_ite (fun w : Viewer => w.height), ite_self]
  refine ⟨hc, hh, ?_, ?_⟩ <;>
  · try rw [maxScrollOf_congr hc hh]
    simp only [updateSectionSelect, adjustSectionScroll_scrollOffset,
      apply_ite (fun w : Viewer => w.scrollOffset)]
    split_ifs <;> omega

lemma updateHelp_ok (v : Viewer) (key : Str) (h : scrollInRange v) :
    (updateHelp v key).content = v.content ∧
    (updateHelp v key).height = v.height ∧
    scrollInRange (updateHelp v key) := by
  obtain ⟨h0, h1⟩ := h
  have hc : (updateHelp v key).content = v.content := by
    simp only [updateHelp, apply_ite (fun w : Viewer => w.content), ite_self]
  have hh : (updateHelp v key).height = v.height := by
    simp only [updateHelp, apply_ite (fun w : Viewer => w.height), ite_self]
  refine ⟨hc, hh, ?_, ?_⟩ <;>
  · try rw [maxScrollOf_congr hc hh]
    simp only [updateHelp, apply_ite (fun w : Viewer => w.scrollOffset)]
    split_ifs <;> omega

lemma scrollToCurrentMatch_content (v : Viewer) :
    (scrollToCurrentMatch v).content = v.content := by
  unfold scrollToCurrentMatch centerScroll
  dsimp only
  split_ifs <;> simp [adjustSidebarScroll_content]

lemma scrollToCurrentMatch_height (v : Viewer) :
    (scrollToCurrentMatch v).height = v.height := by
  unfold scrollToCurrentMatch centerScroll
  dsimp only
  split_ifs <;> simp [adjustSidebarScroll_height]

lemma scrollToCurrentMatch_then_ok (w : Viewer) (hw : scrollInRange w)
    (M : ViewerMode) (F : Int) :
    scrollInRange { scrollToCurrentMatch w with mode := M, focusPane := F } := by
  obtain ⟨hcn, hht, hlo, hhi⟩ := scrollToCurrentMatch_ok w hw
  exact scrollInRange_mk (v := w) hcn hht hlo hhi

lemma scrollToCurrentMatch_focus_ok (w : Viewer) (hw : scrollInRange w) (F : Int) :
    scrollInRange { scrollToCurrentMatch w with focusPane := F } := by
  obtain ⟨hcn, hht, hlo, hhi⟩ := scrollToCurrentMatch_ok w hw
  exact scrollInRange_mk (v := w) hcn hht hlo hhi

lemma updateSearch_ok (v : Viewer) (key : Str) (h : scrollInRange v) :
    (updateSearch v key).content = v.content ∧
    (updateSearch v key).height = v.height ∧
    scrollInRange (updateSearch v key) := by
  obtain ⟨h0, h1⟩ := h
  have hc : (updateSearch v key).content = v.content := by
    simp only [updateSearch, scrollToCurrentMatch_content,
      apply_ite (fun w : Viewer => w.content), ite_self]
  have hh : (updateSearch v key).height = v.height := by
    simp only [updateSearch, scrollToCurrentMatch_height,
      apply_ite (fun w : Viewer => w.height), ite_self]
  refine ⟨hc, hh, ?_⟩
  by_cases hk1 : key = keyCtrlC
  · have e : updateSearch v key = { v with quitting := true } := by
      simp only [updateSearch, if_pos hk1]
    rw [e]
    exact ⟨h0, h1⟩
  by_cases hk2 : key = keyEsc
  · have e : updateSearch v key = { v with mode := ModeNormal, searchInput := [] } := by
      simp only [updateSearch, if_neg hk1, if_pos hk2]
    rw [e]
    exact ⟨h0, h1⟩
  by_cases hk3 : key = keyEnter
  · have e : updateSearch v key =
        (let v1 := { v with searchQuery := v.searchInput, currentMatch := 0,
                            sidebarCursor := 0, sidebarScrollOffset := 0 }
         if v1.searchType = SearchAll then
           let ml := findMatchingLines v1
           let v2 := { v1 with matchingLines := ml, filteredIndices := [] }
           let v3 := if ml ≠ [] then scrollToCurrentMatch v2 else v2
           { v3 with mode := ModeNormal, focusPane := PaneContent }
         else
           let fi := findMatchingSections v1
           let v2 := { v1 with filteredIndices := fi, matchingLines := [] }
           let v3 := if fi ≠ [] then scrollToCurrentMatch v2 else v2
           { v3 with mode := ModeNormal, focusPane := PaneContent }) := by
      simp only [updateSearch, if_neg hk1, if_neg hk2, if_pos hk3]
    rw [e]
    dsimp only
    split_ifs with hst hml hfi
    · exact scrollToCurrentMatch_then_ok _ (by exact ⟨h0, h1⟩) _ _
    · exact ⟨h0, h1⟩
    · exact scrollToCurrentMatch_then_ok _ (by exact ⟨h0, h1⟩) _ _
    · exact ⟨h0, h1⟩
  by_cases hk4 : key = keyBackspace
  · have e : updateSearch v key =
        (if v.searchInput ≠ [] then { v with searchInput := v.searchInput.dropLast } else v) := by
      simp only [updateSearch, if_neg hk1, if_neg hk2, if_neg hk3, if_pos hk4]
    rw [e]
    split_ifs
    · exact ⟨h0, h1⟩
    · exact ⟨h0, h1⟩
  by_cases hk5 : key.length = 1
  · have e : updateSearch v key = { v with searchInput := v.searchInput ++ key } := by
      simp only [updateSearch, if_neg hk1, if_neg hk2, if_neg hk3, if_neg hk4, if_pos hk5]
    rw [e]
    exact ⟨h0, h1⟩
  · have e : updateSearch v key = v := by
      simp only [updateSearch, if_neg hk1, if_neg hk2, if_neg hk3, if_neg hk4, if_neg hk5]
    rw [e]
    exact ⟨h0, h1⟩

lemma updateNormal_ok (v : Viewer) (key : Str) (hne : v.content.Lines ≠ [])
    (h : scrollInRange v) :
    (updateNormal v key).content = v.content ∧
    (updateNormal v key).height = v.height ∧
    scrollInRange (updateNormal v key) := by
  obtain ⟨h0, h1⟩ := h
  by_cases hk1 : key = keyQ ∨ key = keyCtrlC
  · have e : updateNormal v key = { v with quitting := true } := by
      simp only [updateNormal, if_pos hk1]
    rw [e]
    exact ⟨rfl, rfl, h0, h1⟩
  by_cases hk2 : key = keyTab
  · have e : updateNormal v key =
        { v with focusPane := Int.tmod (v.focusPane + 1) PaneCount } := by
      simp only [updateNormal, if_neg hk1, if_pos hk2]
    rw [e]
    exact ⟨rfl, rfl, h0, h1⟩
  by_cases hk3 : key = keyShiftTab
  · have e : updateNormal v key =
        { v with focusPane := Int.tmod (v.focusPane + PaneCount - 1) PaneCount } := by
      simp only [updateNormal, if_neg hk1, if_neg hk2, if_pos hk3]
    rw [e]
    exact ⟨rfl, rfl, h0, h1⟩
  by_cases hk4 : key = keySlash
  · have e : updateNormal v key =
        { v with mode := ModeSearch, searchInput := [], searchType := SearchAll } := by
      simp only [updateNormal, if_neg hk1, if_neg hk2, if_neg hk3, if_pos hk4]
    rw [e]
    exact ⟨rfl, rfl, h0, h1⟩
  by_cases hk5 : key = keyOLower
  · have e : updateNormal v key =
        { v with mode := ModeSearch, searchInput := [], searchType := SearchOption } := by
      simp only [updateNormal, if_neg hk1, if_neg hk2, if_neg hk3, if_neg hk4, if_pos hk5]
    rw [e]
    exact ⟨rfl, rfl, h0, h1⟩
  by_cases hk6 : key = keyOUpper
  · have e : updateNormal v key =
        { v with mode := ModeSearch, searchInput := [], searchType := SearchOptionExact } := by
      simp only [updateNormal, if_neg hk1, if_neg hk2, if_neg hk3, if_neg hk4, if_neg hk5,
        if_pos hk6]
    rw [e]
    exact ⟨rfl, rfl, h0, h1⟩
  by_cases hk7 : key = keyD
  · have e : updateNormal v key =
        { v with mode := ModeSearch, searchInput := [], searchType := SearchDescription } := by
      simp only [updateNormal, if_neg hk1, if_neg hk2, if_neg hk3, if_neg hk4, if_neg hk5,
        if_neg hk6, if_pos hk7]
    rw [e]
    exact ⟨rfl, rfl, h0, h1⟩
  by_cases hk8 : key = keyEsc
  · have e : updateNormal v key =
        { v with searchQuery := [], filteredIndices := [], matchingLines := [],
                 currentMatch := 0, sidebarCursor := 0, sidebarScrollOffset := 0 } := by
      simp only [updateNormal, if_neg hk1, if_neg hk2, if_neg hk3, if_neg hk4, if_neg hk5,
        if_neg hk6, if_neg hk7, if_pos hk8]
    rw [e]
    exact ⟨rfl, rfl, h0, h1⟩
  by_cases hk9 : key = keyNLower
  · have e : updateNormal v key =
        (if totalMatches v > 0 then
          { scrollToCurrentMatch
              { v with currentMatch :=
                  Int.tmod (v.currentMatch + 1) ((totalMatches v : Nat) : Int) } with
            focusPane := PaneContent }
        else v) := by
      simp only [updateNormal, if_neg hk1, if_neg hk2, if_neg hk3, if_neg hk4, if_neg hk5,
        if_neg hk6, if_neg hk7, if_neg hk8, if_pos hk9]
    rw [e]
    split_ifs
    · refine ⟨?_, ?_, ?_⟩
      · exact scrollToCurrentMatch_content _
      · exact scrollToCurrentMatch_height _
      · exact scrollToCurrentMatch_focus_ok _ (by exact ⟨h0, h1⟩) _
    · exact ⟨rfl, rfl, h0, h1⟩
  by_cases hk10 : key = keyNUpper
  · have e : updateNormal v key =
        (if totalMatches v > 0 then
          { scrollToCurrentMatch
              { v with currentMatch :=
                  if v.currentMatch - 1 < 0 then ((totalMatches v : Nat) : Int) - 1
                  else v.currentMatch - 1 } with
            focusPane := PaneContent }
        else v) := by
      simp only [updateNormal, if_neg hk1, if_neg hk2, if_neg hk3, if_neg hk4, if_neg hk5,
        if_neg hk6, if_neg hk7, if_neg hk8, if_neg hk9, if_pos hk10]
    rw [e]
    split_ifs <;>
      first
        | exact ⟨scrollToCurrentMatch_content _, scrollToCurrentMatch_height _,
            scrollToCurrentMatch_focus_ok _ (by exact ⟨h0, h1⟩) _⟩
        | exact ⟨rfl, rfl, h0, h1⟩
  by_cases hk11 : key = keyGUpper
  · have e : updateNormal v key =
        (if v.content.ManSections.length > 0 then
          { v with mode := ModeSectionSelect, sectionCursor := 0, sectionScrollOffset := 0 }
        else v) := by
      simp only [updateNormal, if_neg hk1, if_neg hk2, if_neg hk3, if_neg hk4, if_neg hk5,
        if_neg hk6, if_neg hk7, if_neg hk8, if_neg hk9, if_neg hk10, if_pos hk11]
    rw [e]
    split_ifs
    · exact ⟨rfl, rfl, h0, h1⟩
    · exact ⟨rfl, rfl, h0, h1⟩
  by_cases hk12 : key = keyQuestion
  · have e : updateNormal v key = { v with mode := ModeHelp } := by
      simp only [updateNormal, if_neg hk1, if_neg hk2, if_neg hk3, if_neg hk4, if_neg hk5,
        if_neg hk6, if_neg hk7, if_neg hk8, if_neg hk9, if_neg hk10, if_neg hk11,
        if_pos hk12]
    rw [e]
    exact ⟨rfl, rfl, h0, h1⟩
  by_cases hk13 : v.focusPane = PaneSidebar
  · have e : updateNormal v key = updateSidebar v key := by
      simp only [updateNormal, if_neg hk1, if_neg hk2, if_neg hk3, if_neg hk4, if_neg hk5,
        if_neg hk6, if_neg hk7, if_neg hk8, if_neg hk9, if_neg hk10, if_neg hk11,
        if_neg hk12, if_pos hk13]
    rw [e]
    exact updateSidebar_ok v key ⟨h0, h1⟩
  by_cases hk14 : v.focusPane = PaneSections
  · have e : updateNormal v key = updateSections v key := by
      simp only [updateNormal, if_neg hk1, if_neg hk2, if_neg hk3, if_neg hk4, if_neg hk5,
        if_neg hk6, if_neg hk7, if_neg hk8, if_neg hk9, if_neg hk10, if_neg hk11,
        if_neg hk12, if_neg hk13, if_pos hk14]
    rw [e]
    exact updateSections_ok v key ⟨h0, h1⟩
  · have e : updateNormal v key = updateContent v key := by
      simp only [updateNormal, if_neg hk1, if_neg hk2, if_neg hk3, if_neg hk4, if_neg hk5,
        if_neg hk6, if_neg hk7, if_neg hk8, if_neg hk9, if_neg hk10, if_neg hk11,
        if_neg hk12, if_neg hk13, if_neg hk14]
    rw [e]
    exact updateContent_ok v key hne ⟨h0, h1⟩

/-- One key event in any mode preserves the scroll invariant, the parsed
content and the window height. -/
lemma update_ok (v : Viewer) (key : Str) (hne : v.content.Lines ≠ [])
    (h : scrollInRange v) :
    (update v key).content = v.content ∧
    (update v key).height = v.height ∧
    scrollInRange (update v key) := by
  cases hm : v.mode
  case ModeNormal =>
    have e : update v key = updateNormal v key := by unfold update; rw [hm]
    rw [e]
    exact updateNormal_ok v key hne h
  case ModeSearch =>
    have e : update v key = updateSearch v key := by unfold update; rw [hm]
    rw [e]
    exact updateSearch_ok v key h
  case ModeSectionSelect =>
    have e : update v key = updateSectionSelect v key := by unfold update; rw [hm]
    rw [e]
    exact updateSectionSelect_ok v key h
  case ModeHelp =>
    have e : update v key = updateHelp v key := by unfold update; rw [hm]
    rw [e]
    exact updateHelp_ok v key h

lemma applyKeys_ok (keys : List Str) (v : Viewer) (hne : v.content.Lines ≠ [])
    (h : scrollInRange v) :
    (applyKeys v keys).content = v.content ∧ scrollInRange (applyKeys v keys) := by
  induction keys generalizing v with
  | nil => exact ⟨rfl, h⟩
  | cons k ks ih =>
    obtain ⟨hc, hh, hr⟩ := update_ok v k hne h
    have hne' : (update v k).content.Lines ≠ [] := by rw [hc]; exact hne
    obtain ⟨hc', hr'⟩ := ih (update v k) hne' hr
    exact ⟨by rw [show applyKeys v (k :: ks) = applyKeys (update v k) ks from rfl, hc', hc],
      hr'⟩

/-- C6: after any sequence of key events (in particular up, down, page
up/down, home, end, and the jump-to-match and jump-to-section events)
applied to a viewer with at least one content line (`strings.Split` never
yields an empty line list) whose scroll offset is in range, the content
pane's scroll offset remains in
`[0, max(0, totalLines − viewportHeight)]`, i.e. `[0, maxScrollOf]`. -/
theorem c6_scroll_clamped (v : Viewer) (keys : List Str)
    (hne : v.content.Lines ≠ []) (h0 : 0 ≤ v.scrollOffset)
    (h1 : v.scrollOffset ≤ maxScrollOf v) :
    0 ≤ (applyKeys v keys).scrollOffset ∧
      (applyKeys v keys).scrollOffset ≤ maxScrollOf (applyKeys v keys) :=
  (applyKeys_ok keys v hne ⟨h0, h1⟩).2

/-- C6 witness: a concrete event sequence on a concrete state. -/
theorem c6_witness :
    0 ≤ (applyKeys baseViewer
        [keyDown, keyDown, keyPgDown, keyEnd, keyGUpper, keyUp, keyPgUp, keyHome,
         keyNLower, keyTab, keyJ]).scrollOffset ∧
      (applyKeys baseViewer
        [keyDown, keyDown, keyPgDown, keyEnd, keyGUpper, keyUp, keyPgUp, keyHome,
         keyNLower, keyTab, keyJ]).scrollOffset ≤
        maxScrollOf (applyKeys baseViewer
          [keyDown, keyDown, keyPgDown, keyEnd, keyGUpper, keyUp, keyPgUp, keyHome,
           keyNLower, keyTab, keyJ]) :=
  c6_scroll_clamped baseViewer _ (by decide) (by decide) (by decide)
